import Mathlib

/-!
Shallow embedding of the yamdb_api core (Django REST project): the signup /
confirmation-code / token-exchange protocol, the role-based permission
policies, the one-review-per-(title, author) invariant and the rating
aggregation.  Definitions are translated from `src/api_yamdb/api/views.py`,
`src/api_yamdb/api/serializers.py`, `src/api_yamdb/api/permissions.py`,
`src/api_yamdb/reviews/validators.py` and `src/api_yamdb/reviews/models.py`.
Framework-internal collaborators (Django's token generator, e-mail transport,
HTTP plumbing) are modelled at their interface as the specification describes
them.
-/

deriving instance DecidableEq for Except

namespace Yamdb

/-- Lowercasing of a string (Python's `str.lower()`), applied character by
character at the data level. -/
def strLower (s : String) : String :=
  ⟨s.data.map Char.toLower⟩

/-- Whether every character of a string satisfies a predicate, at the data
level. -/
def strAll (p : Char → Bool) (s : String) : Bool :=
  s.data.all p

/-- Roles of `reviews.models.ROLE_CHOICES`: user / moderator / admin. -/
inductive Role where
  | user
  | moderator
  | admin
deriving DecidableEq

/-- A user record (`reviews.models.User`).  `secret` stands for the mutable
secret-bearing fields (password hash / last-login) that Django's token
generator hashes; `is_staff` is the Django staff flag which the model's
`is_admin` property also accepts. -/
structure User where
  id : Nat
  username : String
  email : String
  first_name : String
  last_name : String
  bio : String
  role : Role
  is_staff : Bool
  secret : Nat
deriving DecidableEq

/-- `User.is_admin` property: `self.role == ADMIN or self.is_staff`. -/
def User.is_admin (u : User) : Bool :=
  u.role == Role.admin || u.is_staff

/-- `User.is_moderator` property: `self.role == MODERATOR`. -/
def User.is_moderator (u : User) : Bool :=
  u.role == Role.moderator

/-- A catalog entry (`reviews.models.Title`); only the fields the claims
touch are carried. -/
structure Title where
  id : Nat
  name : String
  year : Int
deriving DecidableEq

/-- A review (`reviews.models.Review`): foreign keys are carried by id.
`score` is validated into `[1, 10]` at the API boundary. -/
structure Review where
  id : Nat
  title : Nat
  author : Nat
  score : Nat
  text : String
deriving DecidableEq

/-- The persistent store: the three tables the claims are about. -/
structure Store where
  users : List User
  titles : List Title
  reviews : List Review
deriving DecidableEq

/-- Error kinds raised by the serializers and views; each renders as a DRF
error body (see `ErrKind.key`). -/
inductive ErrKind where
  | usernameBanned
  | usernameBadChars
  | fieldInvalid
  | emailTaken
  | usernameTaken
  | duplicateReview
  | roleInvalid
  | badConfirmationCode
deriving DecidableEq

/-- JSON key under which each error kind is reported.  Field-level failures
are keyed by the field; cross-field failures land in `non_field_errors`; the
`GetApiToken` bad-code response is keyed `confirmation_code`.  The concrete
field name behind the generic `fieldInvalid` is abstracted. -/
def ErrKind.key : ErrKind → String
  | .usernameBanned => "username"
  | .usernameBadChars => "username"
  | .fieldInvalid => "field"
  | .emailTaken => "non_field_errors"
  | .usernameTaken => "non_field_errors"
  | .duplicateReview => "non_field_errors"
  | .roleInvalid => "role"
  | .badConfirmationCode => "confirmation_code"

/-- An HTTP-level response, reduced to what the claims observe.
`internalError` models an unhandled exception propagating as a 500. -/
inductive HResp where
  | ok (body : List (String × String))
  | created (body : List (String × String))
  | badRequest (err : ErrKind)
  | notFound
  | internalError
deriving DecidableEq

/-- HTTP status code of a response. -/
def HResp.status : HResp → Nat
  | .ok _ => 200
  | .created _ => 201
  | .badRequest _ => 400
  | .notFound => 404
  | .internalError => 500

/-- Python's `\w` over ASCII: letters, digits and underscore. -/
def isWordChar (c : Char) : Bool :=
  c.isAlphanum || c == '_'

/-- One character of the model-level username charset, regex `[\w.@+-]`
(`reviews/validators.py`). -/
def usernameChar (c : Char) : Bool :=
  isWordChar c || c == '.' || c == '@' || c == '+' || c == '-'

/-- One character of DRF's `SlugField` charset, regex `[-a-zA-Z0-9_]`. -/
def slugChar (c : Char) : Bool :=
  c.isAlphanum || c == '-' || c == '_'

/-- Reserved usernames (`reviews/validators.py : BANNED_USERNAME`). -/
def BANNED_USERNAME : List String := ["me"]

/-- `reviews.validators.validate_username`: reject when the lowercased name
is reserved, then reject unless every character matches `[\w.@+-]` (and the
name is nonempty, the regex being `^[\w.@+-]+$`). -/
def validate_username (username : String) : Except ErrKind String :=
  if BANNED_USERNAME.contains (strLower username) then
    .error .usernameBanned
  else if 0 < username.length && strAll usernameChar username then
    .ok username
  else
    .error .usernameBadChars

/-- The `username` field of `LoginSerializer`: a required DRF
`SlugField(max_length=150)` (nonempty, at most 150 chars, slug charset),
followed by the serializer's `validate_username` hook. -/
def login_username_field (u : String) : Except ErrKind String :=
  if u.length == 0 || 150 < u.length || !(strAll slugChar u) then
    .error .fieldInvalid
  else
    validate_username u

/-- Modelled from the spec: "`email` (unique, valid email syntax)" — the
`EmailField(max_length=254)` of `LoginSerializer`.  Django's `EmailValidator`
is framework code external to the repository; its syntax check is abstracted
to: nonempty, at most 254 chars, exactly one `@` with nonempty local and
domain parts. -/
def email_field_ok (e : String) : Bool :=
  0 < e.length && e.length ≤ 254 &&
    e.data.countP (· == '@') == 1 &&
    e.data.head? != some '@' && e.data.getLast? != some '@'

/-- `LoginSerializer.validate`: look up the first user matching the submitted
username or email (`Q(username=...) | Q(email=...)` followed by `.first()`);
if one exists, reject when its email differs, then when its username
differs. -/
def login_cross_validate (users : List User) (username email : String) :
    Except ErrKind Unit :=
  match users.find? (fun x => x.username == username || x.email == email) with
  | some user =>
      if user.email != email then .error .emailTaken
      else if user.username != username then .error .usernameTaken
      else .ok ()
  | none => .ok ()

/-- `LoginSerializer.is_valid`: field-level validation of both fields, then
the cross-field `validate`. -/
def loginSerializer_is_valid (users : List User) (username email : String) :
    Except ErrKind Unit := do
  let _ ← login_username_field username
  if email_field_ok email then pure () else throw .fieldInvalid
  login_cross_validate users username email

/-- Modelled from the spec: the Confirmation Code Engine (§4.1, §9) — the
code is a deterministic HMAC over (user id, per-user mutable fingerprint),
idealized as the injective Cantor pairing of the two; it stands for Django's
`default_token_generator.make_token`, which is external to the repository. -/
def make_token (u : User) : Nat :=
  Nat.pair u.id u.secret

/-- `default_token_generator.check_token`: recompute the code for the given
user and compare with the submitted one. -/
def check_token (u : User) (code : Nat) : Bool :=
  code == make_token u

/-- `api.utils.send_confirmation_code`: look the user up by the submitted
username and e-mail them a freshly computed token.  The delivered code is
returned so theorems can observe the side effect; `none` corresponds to the
`get_object_or_404` miss. -/
def send_confirmation_code (s : Store) (username : String) : Option Nat :=
  (s.users.find? (fun u => u.username == username)).map make_token

/-- Outcome of a signup request: the response, the store after the request,
and the confirmation code delivered by e-mail, if any. -/
structure SignupResult where
  resp : HResp
  store : Store
  sent : Option Nat
deriving DecidableEq

/-- `api.views.ApiUserSignup.post`.  If a user with exactly the submitted
(username, email) pair exists, re-send the confirmation code and echo the
request with status 200.  Otherwise run `LoginSerializer` validation and then
`serializer.save()` — `LoginSerializer` subclasses the plain
`serializers.Serializer` and defines no `create()`, so `save()` reaches
`BaseSerializer.create` which raises `NotImplementedError`: the request ends
as an unhandled 500 and no user is persisted. -/
def signup (s : Store) (username email : String) : SignupResult :=
  if s.users.any (fun u => u.username == username && u.email == email) then
    { resp := .ok [("username", username), ("email", email)]
      store := s
      sent := send_confirmation_code s username }
  else
    match loginSerializer_is_valid s.users username email with
    | .error k => { resp := .badRequest k, store := s, sent := none }
    | .ok _ => { resp := .internalError, store := s, sent := none }

/-- The `username` field of `TokenSerializer`: a required `CharField`
(nonempty) followed by the serializer's `validate_username` hook.  The
`confirmation_code` field is a `CharField(max_length=50)`; the code itself is
carried abstractly as a number, so its length check is not modelled. -/
def token_username_field (u : String) : Except ErrKind String :=
  if u.length == 0 then .error .fieldInvalid
  else validate_username u

/-- Modelled from the spec: the Token Issuer (§4.2) —
`RefreshToken.for_user(user).access_token`, a signed bearer credential bound
to the user identity; the JWT library is external to the repository. -/
def access_token (u : User) : String :=
  "jwt-" ++ toString u.id

/-- `api.views.GetApiToken.post`: validate the serializer, 404 on an unknown
username, mint a token when `check_token` accepts the submitted code, and
otherwise answer 400 under the `confirmation_code` key.  The store is passed
through unchanged. -/
def get_api_token (s : Store) (username : String) (code : Nat) :
    HResp × Store :=
  match token_username_field username with
  | .error k => (.badRequest k, s)
  | .ok uname =>
      match s.users.find? (fun x => x.username == uname) with
      | none => (.notFound, s)
      | some user =>
          if check_token user code then
            (.ok [("token", access_token user)], s)
          else
            (.badRequest .badConfirmationCode, s)

/-- Fresh primary key for a new review. -/
def freshReviewId (s : Store) : Nat :=
  (s.reviews.map Review.id).foldr max 0 + 1

/-- Serialized review body (`ReviewSerializer` read fields, pared down to
the ones the claims observe). -/
def reviewData (r : Review) : List (String × String) :=
  [("id", toString r.id), ("text", r.text), ("score", toString r.score)]

/-- POST on `/titles/{title_id}/reviews/` for an authenticated `author`
(`ReviewViewSet` + `ReviewSerializer`).  Field validation checks the score
validators `MinValueValidator(1)` / `MaxValueValidator(10)`; then
`ReviewSerializer.validate` rejects when a review by the same author for the
same title already exists; then `perform_create` resolves the title
(`get_object_or_404`) and saves the review. -/
def postReview (s : Store) (author : User) (title_id : Nat) (score : Int)
    (text : String) : HResp × Store :=
  if score < 1 || 10 < score then
    (.badRequest .fieldInvalid, s)
  else if s.reviews.any (fun r => r.author == author.id && r.title == title_id) then
    (.badRequest .duplicateReview, s)
  else
    match s.titles.find? (fun t => t.id == title_id) with
    | none => (.notFound, s)
    | some _ =>
        let r : Review :=
          { id := freshReviewId s, title := title_id, author := author.id
            score := score.toNat, text := text }
        (.created (reviewData r), { s with reviews := s.reviews ++ [r] })

/-- PATCH on a review: `ReviewSerializer` exposes only `text` and `score` as
writable (`author` is read-only, `title` absent), so an update rewrites those
two fields of the addressed row and never moves a review to another
(title, author) pair. -/
def patchReviewStore (s : Store) (rid : Nat) (score : Nat) (text : String) :
    Store :=
  { s with
    reviews := s.reviews.map
      (fun r => if r.id == rid then { r with score := score, text := text } else r) }

/-- DELETE on a review. -/
def deleteReviewStore (s : Store) (rid : Nat) : Store :=
  { s with reviews := s.reviews.filter (fun r => r.id != rid) }

/-- DELETE on a title: `Review.title` is `on_delete=CASCADE`, so the title's
reviews go with it. -/
def deleteTitleStore (s : Store) (tid : Nat) : Store :=
  { s with
    titles := s.titles.filter (fun t => t.id != tid)
    reviews := s.reviews.filter (fun r => r.title != tid) }

/-- DELETE on a user: `Review.author` is `on_delete=CASCADE`. -/
def deleteUserStore (s : Store) (uid : Nat) : Store :=
  { s with
    users := s.users.filter (fun u => u.id != uid)
    reviews := s.reviews.filter (fun r => r.author != uid) }

/-- States of the store reachable through the operations that touch reviews:
an initial store holds no reviews (users and titles arrive through the admin
endpoints, the CSV import or migrations), and reviews are only ever written
through `postReview`, review PATCH/DELETE, and the cascading deletes. -/
inductive Reachable : Store → Prop where
  | init (users : List User) (titles : List Title) :
      Reachable ⟨users, titles, []⟩
  | addUser (s : Store) (u : User) : Reachable s →
      Reachable { s with users := s.users ++ [u] }
  | addTitle (s : Store) (t : Title) : Reachable s →
      Reachable { s with titles := s.titles ++ [t] }
  | post (s : Store) (author : User) (title_id : Nat) (score : Int)
      (text : String) : Reachable s →
      Reachable (postReview s author title_id score text).2
  | patchRev (s : Store) (rid : Nat) (score : Nat) (text : String) :
      Reachable s → Reachable (patchReviewStore s rid score text)
  | delRev (s : Store) (rid : Nat) : Reachable s →
      Reachable (deleteReviewStore s rid)
  | delTitle (s : Store) (tid : Nat) : Reachable s →
      Reachable (deleteTitleStore s tid)
  | delUser (s : Store) (uid : Nat) : Reachable s →
      Reachable (deleteUserStore s uid)

/-- The review-integrity invariant: no two reviews share their
(title, author) pair — `UniqueConstraint(fields=('title', 'author'))`. -/
def UniqueReviewPerPair (s : Store) : Prop :=
  s.reviews.Pairwise (fun a b => a.author ≠ b.author ∨ a.title ≠ b.title)

/-- Scores of all reviews of a title, in store order. -/
def scoresOf (s : Store) (title_id : Nat) : List Nat :=
  (s.reviews.filter (fun r => r.title == title_id)).map Review.score

/-- `TitleViewSet.queryset`'s `annotate(rating=Avg('reviews__score'))`: the
SQL average of the title's review scores, recomputed on each query, `NULL`
when the title has no reviews. -/
def rating_avg (s : Store) (title_id : Nat) : Option ℚ :=
  match scoresOf s title_id with
  | [] => none
  | l => some ((l.sum : ℚ) / (l.length : ℚ))

/-- The rating that a read of the title reports:
`TitleViewSerializer.rating` is declared `serializers.IntegerField`, whose
`to_representation` applies Python's `int()` to the SQL average — truncation
toward zero, i.e. the floor of the (nonnegative) mean; a `NULL` average is
rendered as `null`. -/
def rating_reported (s : Store) (title_id : Nat) : Option Nat :=
  (rating_avg s title_id).map (fun q => ⌊q⌋₊)

/-- Refinement-side definition following the spec's words: "rating(T) =
mean(s1..sn)", the exact arithmetic mean, absent when there are no
reviews. -/
def spec_rating_mean (s : Store) (title_id : Nat) : Option ℚ :=
  match scoresOf s title_id with
  | [] => none
  | l => some ((l.sum : ℚ) / (l.length : ℚ))

/-- HTTP request methods. -/
inductive Method where
  | get
  | head
  | options
  | post
  | put
  | patch
  | delete
deriving DecidableEq

/-- `rest_framework.permissions.SAFE_METHODS`. -/
def SAFE_METHODS : List Method := [.get, .head, .options]

/-- Whether a method is safe. -/
def Method.isSafe (m : Method) : Bool :=
  SAFE_METHODS.contains m

/-- An incoming request as the permission layer sees it: the verb and the
authenticated user, `none` for an anonymous request. -/
structure Request where
  method : Method
  user : Option User
deriving DecidableEq

/-- `IsAdmin.has_permission`:
`request.user.is_authenticated and request.user.is_admin`. -/
def IsAdmin_has_permission (r : Request) : Bool :=
  match r.user with
  | some u => u.is_admin
  | none => false

/-- `IsAdminOrReadOnly.has_permission`: the `IsAdmin` check, or a safe
method. -/
def IsAdminOrReadOnly_has_permission (r : Request) : Bool :=
  IsAdmin_has_permission r || r.method.isSafe

/-- `request.user.is_moderator` as the object-level check reads it.  An
anonymous request never reaches this read (the authentication policy already
denied it), so the anonymous value is immaterial; it is taken false. -/
def requestUserIsModerator : Option User → Bool
  | some u => u.is_moderator
  | none => false

/-- `obj.author == request.user`, compared by identity; an anonymous request
never equals a stored author. -/
def requestUserIsAuthor (ou : Option User) (objAuthor : Nat) : Bool :=
  match ou with
  | some u => u.id == objAuthor
  | none => false

/-- `IsAuthorOrModeratorsOrReadOnly.has_object_permission`:
`IsAdminOrReadOnly().has_permission(...) or request.user.is_moderator
or obj.author == request.user`. -/
def IsAuthorOrModeratorsOrReadOnly_has_object_permission
    (r : Request) (objAuthor : Nat) : Bool :=
  IsAdminOrReadOnly_has_permission r
    || requestUserIsModerator r.user
    || requestUserIsAuthor r.user objAuthor

/-- `IsAuthenticatedOrReadOnly.has_permission`. -/
def IsAuthenticatedOrReadOnly_has_permission (r : Request) : Bool :=
  r.user.isSome || r.method.isSafe

/-- DRF's composition for an object-level request on `ReviewViewSet` /
`CommentViewSet` (`permission_classes = (IsAuthorOrModeratorsOrReadOnly,
IsAuthenticatedOrReadOnly)`): every class's `has_permission` must accept,
then every class's `has_object_permission` must accept on the retrieved
object; the checks not overridden default to `True`. -/
def review_object_request_allowed (r : Request) (objAuthor : Nat) : Bool :=
  IsAuthenticatedOrReadOnly_has_permission r
    && IsAuthorOrModeratorsOrReadOnly_has_object_permission r objAuthor

/-- Role names as serialized (`ROLE_CHOICES` keys). -/
def Role.toStr : Role → String
  | .user => "user"
  | .moderator => "moderator"
  | .admin => "admin"

/-- Parse a submitted role value against `ROLE_CHOICES`. -/
def parseRole : String → Option Role
  | "user" => some .user
  | "moderator" => some .moderator
  | "admin" => some .admin
  | _ => none

/-- A PATCH body for `/users/me/`: each field optionally present.  `role`
carries the raw submitted string — it is parsed only when the serializer
treats it as writable. -/
structure PatchBody where
  username : Option String
  email : Option String
  first_name : Option String
  last_name : Option String
  bio : Option String
  role : Option String
deriving DecidableEq

/-- A user as `UserSerializer` / `AdminUsersSerializer` renders it (fields
`username, email, first_name, last_name, bio, role`). -/
def userData (u : User) : List (String × String) :=
  [("username", u.username), ("email", u.email),
   ("first_name", u.first_name), ("last_name", u.last_name),
   ("bio", u.bio), ("role", u.role.toStr)]

/-- Partial update through `UserSerializer` (`roleWritable = false`, the
serializer lists `role` in `read_only_fields` so a submitted value is
dropped unvalidated) or `AdminUsersSerializer` (`roleWritable = true`).
Writable fields are validated as the `ModelSerializer` generates them from
the model: `username` with `validate_username`, length 150 and the unique
constraint; `email` with syntax, length 254 and the unique constraint;
`first_name` / `last_name` with length 150. -/
def userSerializer_apply (s : Store) (u : User) (b : PatchBody)
    (roleWritable : Bool) : Except ErrKind User := do
  let newUsername ←
    match b.username with
    | none => pure u.username
    | some v => do
        if v.length == 0 || 150 < v.length then throw .fieldInvalid
        let _ ← validate_username v
        if s.users.any (fun x => x.username == v && x.id != u.id) then
          throw .fieldInvalid
        pure v
  let newEmail ←
    match b.email with
    | none => pure u.email
    | some v => do
        if !(email_field_ok v) then throw .fieldInvalid
        if s.users.any (fun x => x.email == v && x.id != u.id) then
          throw .fieldInvalid
        pure v
  let newFirst ←
    match b.first_name with
    | none => pure u.first_name
    | some v => if v.length ≤ 150 then pure v else throw .fieldInvalid
  let newLast ←
    match b.last_name with
    | none => pure u.last_name
    | some v => if v.length ≤ 150 then pure v else throw .fieldInvalid
  let newBio := b.bio.getD u.bio
  let newRole ←
    if roleWritable then
      match b.role with
      | none => pure u.role
      | some v =>
          match parseRole v with
          | some r => pure r
          | none => throw .roleInvalid
    else
      pure u.role
  pure { u with
         username := newUsername, email := newEmail, first_name := newFirst,
         last_name := newLast, bio := newBio, role := newRole }

/-- PATCH on `/users/me/` (`UserViewSet.get_patch_user_info`): the serializer
class is chosen by `request.user.is_admin`, the partial update is applied to
`request.user`, and the updated record is echoed with status 200. -/
def patchMe (s : Store) (u : User) (b : PatchBody) : HResp × Store :=
  match userSerializer_apply s u b u.is_admin with
  | .error k => (.badRequest k, s)
  | .ok u' =>
      (.ok (userData u'),
       { s with users := s.users.map (fun x => if x.id == u.id then u' else x) })

/-- Well-formed user table: the `unique=True` constraints on `username` and
`email`. -/
def WFUsers (s : Store) : Prop :=
  s.users.Pairwise (fun a b => a.username ≠ b.username ∧ a.email ≠ b.email)

/-- A sample registered user. -/
def userAlice : User :=
  { id := 1, username := "alice", email := "alice@example.com",
    first_name := "", last_name := "", bio := "", role := .user,
    is_staff := false, secret := 11 }

/-- A second sample registered user. -/
def userBob : User :=
  { id := 2, username := "bob", email := "bob@example.com",
    first_name := "", last_name := "", bio := "", role := .user,
    is_staff := false, secret := 22 }

/-- A sample title. -/
def titleOne : Title :=
  { id := 1, name := "Dune", year := 1965 }

/-- Alice's review of title 1, score 1. -/
def reviewAlice : Review :=
  { id := 1, title := 1, author := 1, score := 1, text := "ok" }

/-- Bob's review of title 1, score 2. -/
def reviewBob : Review :=
  { id := 2, title := 1, author := 2, score := 2, text := "meh" }

/-- A sample store: two users, one title, two reviews with scores 1 and 2. -/
def exStore : Store :=
  { users := [userAlice, userBob], titles := [titleOne],
    reviews := [reviewAlice, reviewBob] }

end Yamdb

namespace Yamdb

/-- C3: for every request on a review or comment under the composed
`IsAuthorOrModeratorsOrReadOnly` + `IsAuthenticatedOrReadOnly` policy, a
safe-verb request is allowed, and an unsafe-verb request on an existing
resource is allowed iff the user is an admin (role admin, or the staff flag
the spec's data model folds into admin), or a moderator, or the resource's
author; an anonymous unsafe request is denied by the authentication
policy. -/
theorem author_or_moderator_policy (r : Request) (objAuthor : Nat) :
    review_object_request_allowed r objAuthor =
      (r.method.isSafe ||
        match r.user with
        | some u => u.is_admin || u.is_moderator || (u.id == objAuthor)
        | none => false) := by
  rcases r with ⟨m, ou⟩
  cases ou with
  | none =>
      simp [review_object_request_allowed,
        IsAuthenticatedOrReadOnly_has_permission,
        IsAuthorOrModeratorsOrReadOnly_has_object_permission,
        IsAdminOrReadOnly_has_permission, IsAdmin_has_permission,
        requestUserIsModerator, requestUserIsAuthor]
  | some u =>
      cases hs : m.isSafe <;>
        simp [review_object_request_allowed,
          IsAuthenticatedOrReadOnly_has_permission,
          IsAuthorOrModeratorsOrReadOnly_has_object_permission,
          IsAdminOrReadOnly_has_permission, IsAdmin_has_permission,
          requestUserIsModerator, requestUserIsAuthor, hs,
          Bool.or_assoc, Bool.or_comm, Bool.or_left_comm]

/-- C9: a confirmation code issued for one user never verifies against a
distinct user: the code is a deterministic function of the user's identity
and secret fingerprint, so a user with a different id recomputes a different
code. -/
theorem confirmation_code_user_bound (u v : User) (h : u.id ≠ v.id) :
    check_token v (make_token u) = false := by
  simp only [check_token, make_token, beq_eq_false_iff_ne, ne_eq,
    Nat.pair_eq_pair, not_and]
  intro hid
  exact absurd hid h

/-- Witness for C9 at two concrete users. -/
theorem confirmation_code_user_bound_witness :
    userAlice.id ≠ userBob.id ∧
    check_token userBob (make_token userAlice) = false :=
  ⟨by decide, confirmation_code_user_bound userAlice userBob (by decide)⟩

/-- C10: the reserved-username check lowercases before comparing, so every
spelling whose lowercase form is "me" is rejected by `validate_username`,
and hence by the username validation of both the signup serializer
(`LoginSerializer`) and the token serializer (`TokenSerializer`). -/
theorem reserved_username_case_insensitive (u : String)
    (h : strLower u = "me") :
    validate_username u = .error .usernameBanned ∧
    (∃ k, login_username_field u = .error k) ∧
    (∃ k, token_username_field u = .error k) := by
  have hv : validate_username u = .error .usernameBanned := by
    simp [validate_username, BANNED_USERNAME, h]
  refine ⟨hv, ?_, ?_⟩
  · unfold login_username_field
    split
    · exact ⟨_, rfl⟩
    · exact ⟨_, hv⟩
  · unfold token_username_field
    split
    · exact ⟨_, rfl⟩
    · exact ⟨_, hv⟩

/-- Witness for C10 at the concrete spelling "ME". -/
theorem reserved_username_case_insensitive_witness :
    strLower "ME" = "me" ∧
    (validate_username "ME" = .error .usernameBanned ∧
     (∃ k, login_username_field "ME" = .error k) ∧
     (∃ k, token_username_field "ME" = .error k)) :=
  ⟨by decide, reserved_username_case_insensitive "ME" (by decide)⟩

/-- C7 (evidence of the divergence): a signup with a fresh, fully valid
(username, email) pair does not create the user — validation succeeds and
the request then dies in `serializer.save()` with `NotImplementedError`
(`LoginSerializer` defines no `create`), a 500 with the store unchanged.
Moreover a username containing '.', although inside the documented
`[\w.@+-]` charset accepted by `validate_username`, is rejected up front by
the serializer's `SlugField`. -/
theorem signup_fresh_valid_crashes :
    (signup ⟨[], [], []⟩ "alice" "alice@example.com").resp = .internalError ∧
    (signup ⟨[], [], []⟩ "alice" "alice@example.com").store.users = [] ∧
    (signup ⟨[], [], []⟩ "john.doe" "john@example.com").resp =
      .badRequest .fieldInvalid ∧
    validate_username "john.doe" = .ok "john.doe" := by decide

/-- C2 (counterexample): on a store whose title 1 carries review scores 1
and 2 the query-time average is 3/2, but the serializer's `IntegerField`
reports 1, which is not the arithmetic mean. -/
theorem rating_mean_counterexample :
    rating_avg exStore 1 = some ((3 : ℚ) / 2) ∧
    rating_reported exStore 1 = some 1 ∧
    ((1 : ℚ) ≠ (3 : ℚ) / 2) := by
  have hs : scoresOf exStore 1 = [1, 2] := by decide
  have havg : rating_avg exStore 1 = some ((3 : ℚ) / 2) := by
    unfold rating_avg
    rw [hs]
    norm_num
  refine ⟨havg, ?_, by norm_num⟩
  unfold rating_reported
  rw [havg, Option.map_some']
  congr 1
  rw [Nat.floor_eq_iff] <;> norm_num

/-- C2 (amended): the rating reported on a read of a title is the floor of
the arithmetic mean of its review scores — equivalently the integer
division of their sum by their count — absent when the title has no
reviews, and recomputed from the current reviews on every read (it is a
function of the review table only, never stored). -/
theorem rating_reported_floor_of_mean :
    (∀ (s : Store) (tid : Nat),
        rating_reported s tid =
          (spec_rating_mean s tid).map (fun q => ⌊q⌋₊)) ∧
    (∀ (s : Store) (tid : Nat) (l : List Nat),
        scoresOf s tid = l → l ≠ [] →
        rating_reported s tid = some (l.sum / l.length)) ∧
    (∀ (s : Store) (tid : Nat),
        scoresOf s tid = [] → rating_reported s tid = none) ∧
    (∀ (s s' : Store) (tid : Nat), s.reviews = s'.reviews →
        rating_reported s tid = rating_reported s' tid) := by
  refine ⟨fun s tid => rfl, ?_, ?_, ?_⟩
  · intro s tid l hl hne
    unfold rating_reported rating_avg
    rw [hl]
    cases l with
    | nil => exact absurd rfl hne
    | cons a as =>
        simp only [Option.map_some']
        rw [Nat.floor_div_nat, Nat.floor_natCast]
  · intro s tid hl
    unfold rating_reported rating_avg
    rw [hl]
    rfl
  · intro s s' tid hrev
    unfold rating_reported rating_avg scoresOf
    rw [hrev]

/-- Witness for C2's amended theorem at concrete stores. -/
theorem rating_reported_floor_of_mean_witness :
    (rating_reported exStore 1 =
      (spec_rating_mean exStore 1).map (fun q => ⌊q⌋₊)) ∧
    (scoresOf exStore 1 = [1, 2] ∧
      rating_reported exStore 1 = some ([1, 2].sum / [(1 : Nat), 2].length)) ∧
    (scoresOf exStore 7 = [] ∧ rating_reported exStore 7 = none) :=
  ⟨rating_reported_floor_of_mean.1 exStore 1,
   ⟨by decide,
    rating_reported_floor_of_mean.2.1 exStore 1 [1, 2] (by decide)
      (by decide)⟩,
   ⟨by decide,
    rating_reported_floor_of_mean.2.2.1 exStore 7 (by decide)⟩⟩

end Yamdb

namespace Yamdb

/-- C4: signup on an already-registered (username, email) pair is
idempotent — the request answers 200 echoing the pair, creates and mutates
nothing, re-triggers confirmation-code delivery, and a second identical call
behaves identically. -/
theorem signup_idempotent_registered_pair (s : Store) (u e : String)
    (h : ∃ x ∈ s.users, x.username = u ∧ x.email = e) :
    (signup s u e).resp = .ok [("username", u), ("email", e)] ∧
    (signup s u e).store = s ∧
    (signup s u e).sent.isSome = true ∧
    signup (signup s u e).store u e = signup s u e := by
  obtain ⟨x, hx, hxu, hxe⟩ := h
  have hany : (s.users.any fun v => v.username == u && v.email == e) = true := by
    rw [List.any_eq_true]
    exact ⟨x, hx, by simp [hxu, hxe]⟩
  have hsig : signup s u e =
      { resp := .ok [("username", u), ("email", e)], store := s,
        sent := send_confirmation_code s u } := by
    unfold signup
    simp [hany]
  have hsent : (send_confirmation_code s u).isSome = true := by
    unfold send_confirmation_code
    rw [Option.isSome_map', List.find?_isSome]
    exact ⟨x, hx, by simp [hxu]⟩
  refine ⟨by rw [hsig], by rw [hsig], by rw [hsig]; exact hsent, ?_⟩
  rw [hsig]
  exact hsig

/-- Witness for C4 at a concrete registered pair. -/
theorem signup_idempotent_registered_pair_witness :
    (∃ x ∈ exStore.users,
        x.username = "alice" ∧ x.email = "alice@example.com") ∧
    ((signup exStore "alice" "alice@example.com").resp =
        .ok [("username", "alice"), ("email", "alice@example.com")] ∧
      (signup exStore "alice" "alice@example.com").store = exStore ∧
      (signup exStore "alice" "alice@example.com").sent.isSome = true ∧
      signup (signup exStore "alice" "alice@example.com").store
          "alice" "alice@example.com" =
        signup exStore "alice" "alice@example.com") :=
  ⟨by decide,
   signup_idempotent_registered_pair exStore "alice" "alice@example.com"
     (by decide)⟩

/-- C5: a signup whose username is bound to a different email, or whose
email is bound to a different username, is rejected with the domain
conflict error of `LoginSerializer.validate` and leaves the user table
untouched.  The request is assumed to pass the field-level checks; the user
table satisfies its unique constraints. -/
theorem signup_conflict_rejected (s : Store) (u e : String)
    (hwf : WFUsers s)
    (hu : login_username_field u = .ok u)
    (he : email_field_ok e = true)
    (hx : ∃ x ∈ s.users,
        (x.username = u ∧ x.email ≠ e) ∨ (x.email = e ∧ x.username ≠ u)) :
    (∃ k, (signup s u e).resp = .badRequest k ∧
        (k = .emailTaken ∨ k = .usernameTaken)) ∧
    (signup s u e).store = s := by
  obtain ⟨x, hxmem, hxcase⟩ := hx
  have hsym : Symmetric
      (fun a b : User => a.username ≠ b.username ∧ a.email ≠ b.email) :=
    fun a b hab => ⟨hab.1.symm, hab.2.symm⟩
  have hnopair :
      (s.users.any fun v => v.username == u && v.email == e) = false := by
    by_contra hc
    rw [Bool.not_eq_false, List.any_eq_true] at hc
    obtain ⟨y, hymem, hy⟩ := hc
    rw [Bool.and_eq_true, beq_iff_eq, beq_iff_eq] at hy
    rcases hxcase with ⟨h1, h2⟩ | ⟨h1, h2⟩
    · by_cases hxy : x = y
      · exact h2 (hxy ▸ hy.2)
      · exact (List.Pairwise.forall hsym hwf hxmem hymem hxy).1
          (h1.trans hy.1.symm)
    · by_cases hxy : x = y
      · exact h2 (hxy ▸ hy.1)
      · exact (List.Pairwise.forall hsym hwf hxmem hymem hxy).2
          (h1.trans hy.2.symm)
  have hcross : ∃ k, login_cross_validate s.users u e = .error k ∧
      (k = .emailTaken ∨ k = .usernameTaken) := by
    have hfind :
        (s.users.find? fun v => v.username == u || v.email == e).isSome
          = true := by
      rw [List.find?_isSome]
      refine ⟨x, hxmem, ?_⟩
      rcases hxcase with ⟨h1, _⟩ | ⟨h1, _⟩
      · simp [h1]
      · simp [h1]
    obtain ⟨z, hz⟩ := Option.isSome_iff_exists.mp hfind
    have hzmem := List.mem_of_find?_eq_some hz
    unfold login_cross_validate
    rw [hz]
    by_cases hze : z.email = e
    · have hzu : z.username ≠ u := by
        intro hzu
        have hexact :
            (s.users.any fun v => v.username == u && v.email == e) = true := by
          rw [List.any_eq_true]
          exact ⟨z, hzmem, by simp [hzu, hze]⟩
        rw [hexact] at hnopair
        exact Bool.noConfusion hnopair
      refine ⟨.usernameTaken, ?_, Or.inr rfl⟩
      simp [bne_iff_ne, hze, hzu]
    · refine ⟨.emailTaken, ?_, Or.inl rfl⟩
      simp [bne_iff_ne, hze]
  have hvalid : loginSerializer_is_valid s.users u e =
      login_cross_validate s.users u e := by
    unfold loginSerializer_is_valid
    rw [hu, he]
    rfl
  obtain ⟨k, hk, hkor⟩ := hcross
  have hsig : signup s u e =
      { resp := .badRequest k, store := s, sent := none } := by
    unfold signup
    simp [hnopair, hvalid, hk]
  exact ⟨⟨k, by rw [hsig], hkor⟩, by rw [hsig]⟩

/-- Witness for C5: "alice" is registered with a different email. -/
theorem signup_conflict_rejected_witness :
    WFUsers exStore ∧
    ((∃ k, (signup exStore "alice" "zzz@example.com").resp = .badRequest k ∧
        (k = .emailTaken ∨ k = .usernameTaken)) ∧
      (signup exStore "alice" "zzz@example.com").store = exStore) :=
  ⟨by unfold WFUsers; decide,
   signup_conflict_rejected exStore "alice" "zzz@example.com"
     (by unfold WFUsers; decide) (by decide) (by decide) (by decide)⟩

/-- C6: for a token-exchange request whose username passes validation — an
unknown username answers 404; a registered user with the matching
confirmation code receives 200 with a `token` body; a wrong code receives
400 keyed `confirmation_code`; the store is unchanged in every case. -/
theorem get_api_token_cases (s : Store) (username : String) (code : Nat)
    (hval : token_username_field username = .ok username) :
    (s.users.find? (fun x => x.username == username) = none →
        get_api_token s username code = (.notFound, s)) ∧
    (∀ user, s.users.find? (fun x => x.username == username) = some user →
        (check_token user code = true →
            get_api_token s username code =
              (.ok [("token", access_token user)], s)) ∧
        (check_token user code = false →
            get_api_token s username code =
              (.badRequest .badConfirmationCode, s) ∧
            ErrKind.key .badConfirmationCode = "confirmation_code")) := by
  refine ⟨?_, ?_⟩
  · intro hfind
    simp [get_api_token, hval, hfind]
  · intro user hfind
    refine ⟨?_, ?_⟩
    · intro hchk
      simp [get_api_token, hval, hfind, hchk]
    · intro hchk
      exact ⟨by simp [get_api_token, hval, hfind, hchk], rfl⟩

/-- Witness for C6 covering all three branches on concrete inputs. -/
theorem get_api_token_cases_witness :
    get_api_token exStore "alice" (make_token userAlice) =
      (.ok [("token", access_token userAlice)], exStore) ∧
    (get_api_token exStore "alice" 0 =
      (.badRequest .badConfirmationCode, exStore) ∧
     ErrKind.key .badConfirmationCode = "confirmation_code") ∧
    get_api_token exStore "zoe" 0 = (.notFound, exStore) :=
  ⟨((get_api_token_cases exStore "alice" (make_token userAlice)
        (by decide)).2 userAlice (by decide)).1 (by decide),
   ((get_api_token_cases exStore "alice" 0
        (by decide)).2 userAlice (by decide)).2 (by decide),
   (get_api_token_cases exStore "zoe" 0 (by decide)).1 (by decide)⟩

end Yamdb

namespace Yamdb

/-- C8: PATCH on `/users/me/` by a non-admin goes through `UserSerializer`,
whose `read_only_fields = ('role',)` drops any submitted role value: the
stored and echoed role is the previous one, while bio and the name fields
are applied.  Username/email changes are orthogonal to the claim and taken
absent; submitted name fields are assumed within their length limit. -/
theorem patch_me_role_immutable (s : Store) (u : User) (b : PatchBody)
    (hadmin : u.is_admin = false)
    (hun : b.username = none) (hem : b.email = none)
    (hfn : ∀ v, b.first_name = some v → v.length ≤ 150)
    (hln : ∀ v, b.last_name = some v → v.length ≤ 150) :
    ∃ u', patchMe s u b =
        (.ok (userData u'),
         { s with
           users := s.users.map (fun x => if x.id == u.id then u' else x) }) ∧
      u'.role = u.role ∧
      u'.bio = b.bio.getD u.bio ∧
      u'.first_name = b.first_name.getD u.first_name ∧
      u'.last_name = b.last_name.getD u.last_name ∧
      u'.username = u.username ∧ u'.email = u.email := by
  refine ⟨{ u with
      first_name := b.first_name.getD u.first_name,
      last_name := b.last_name.getD u.last_name,
      bio := b.bio.getD u.bio }, ?_, rfl, rfl, rfl, rfl, rfl, rfl⟩
  have happ : userSerializer_apply s u b u.is_admin =
      .ok { u with
        first_name := b.first_name.getD u.first_name,
        last_name := b.last_name.getD u.last_name,
        bio := b.bio.getD u.bio } := by
    rw [hadmin]
    unfold userSerializer_apply
    rw [hun, hem]
    cases hbf : b.first_name with
    | none =>
        cases hbl : b.last_name with
        | none => rfl
        | some vl => simp only [hln vl hbl, if_true]; rfl
    | some vf =>
        cases hbl : b.last_name with
        | none => simp only [hfn vf hbf, if_true]; rfl
        | some vl => simp only [hfn vf hbf, hln vl hbl, if_true]; rfl
  unfold patchMe
  rw [happ]

/-- Witness for C8: a non-admin PATCHing role "admin" together with fresh
name fields and bio. -/
theorem patch_me_role_immutable_witness :
    userAlice.is_admin = false ∧
    (∃ u', patchMe exStore userAlice
        { username := none, email := none, first_name := some "A",
          last_name := some "B", bio := some "new bio",
          role := some "admin" } =
        (.ok (userData u'),
         { exStore with
           users := exStore.users.map
             (fun x => if x.id == userAlice.id then u' else x) }) ∧
      u'.role = userAlice.role ∧
      u'.bio = (some "new bio").getD userAlice.bio ∧
      u'.first_name = (some "A").getD userAlice.first_name ∧
      u'.last_name = (some "B").getD userAlice.last_name ∧
      u'.username = userAlice.username ∧ u'.email = userAlice.email) :=
  ⟨by decide,
   patch_me_role_immutable exStore userAlice
     { username := none, email := none, first_name := some "A",
       last_name := some "B", bio := some "new bio", role := some "admin" }
     (by decide) rfl rfl
     (fun v hv => by cases hv; decide)
     (fun v hv => by cases hv; decide)⟩

/-- Appending a non-duplicate review preserves pairwise uniqueness of
(title, author); the rejecting branches leave the store unchanged. -/
theorem uniqueReview_postReview (s : Store) (author : User) (title_id : Nat)
    (score : Int) (text : String) (h : UniqueReviewPerPair s) :
    UniqueReviewPerPair (postReview s author title_id score text).2 := by
  unfold postReview
  split
  · exact h
  · split
    · exact h
    · rename_i hdup
      split
      · exact h
      · unfold UniqueReviewPerPair at h ⊢
        rw [List.pairwise_append]
        refine ⟨h, by simp, ?_⟩
        intro a ha b hb
        rw [List.mem_singleton] at hb
        subst hb
        by_contra hcon
        push_neg at hcon
        exact hdup (List.any_eq_true.mpr
          ⟨a, ha, by simp [hcon.1, hcon.2]⟩)

/-- A review PATCH rewrites only text and score, so the (title, author)
pairs are untouched and uniqueness is preserved. -/
theorem uniqueReview_patchReviewStore (s : Store) (rid : Nat) (score : Nat)
    (text : String) (h : UniqueReviewPerPair s) :
    UniqueReviewPerPair (patchReviewStore s rid score text) := by
  unfold UniqueReviewPerPair patchReviewStore at *
  rw [List.pairwise_map]
  refine List.Pairwise.imp ?_ h
  intro a b hab
  by_cases ha : (a.id == rid) = true <;>
    by_cases hb2 : (b.id == rid) = true <;>
      simpa [ha, hb2] using hab

/-- Every reachable store satisfies the one-review-per-(title, author)
invariant. -/
theorem uniqueReview_reachable (s : Store) (h : Reachable s) :
    UniqueReviewPerPair s := by
  induction h with
  | init users titles => exact List.Pairwise.nil
  | addUser s u _ ih => exact ih
  | addTitle s t _ ih => exact ih
  | post s a tid sc tx _ ih => exact uniqueReview_postReview s a tid sc tx ih
  | patchRev s rid sc tx _ ih =>
      exact uniqueReview_patchReviewStore s rid sc tx ih
  | delRev s rid _ ih => exact ih.sublist (List.filter_sublist _)
  | delTitle s tid _ ih => exact ih.sublist (List.filter_sublist _)
  | delUser s uid _ ih => exact ih.sublist (List.filter_sublist _)

/-- C1: every reachable store has at most one review per (title, author)
pair, and a second POST by the same user to the same title's reviews is
rejected with status 400 leaving the review table unchanged whatever the
submitted score and text — with the domain conflict error of
`ReviewSerializer.validate` whenever the submission passes field
validation. -/
theorem review_uniqueness :
    (∀ s : Store, Reachable s → UniqueReviewPerPair s) ∧
    (∀ (s : Store) (author : User) (title_id : Nat) (score : Int)
        (text : String),
      (∃ r ∈ s.reviews, r.author = author.id ∧ r.title = title_id) →
      (postReview s author title_id score text).2 = s ∧
      (postReview s author title_id score text).1.status = 400 ∧
      (1 ≤ score → score ≤ 10 →
        (postReview s author title_id score text).1 =
          .badRequest .duplicateReview)) := by
  refine ⟨fun s hs => uniqueReview_reachable s hs, ?_⟩
  intro s author title_id score text hdup
  obtain ⟨r, hr, hra, hrt⟩ := hdup
  have hany : (s.reviews.any
      fun v => v.author == author.id && v.title == title_id) = true := by
    rw [List.any_eq_true]
    exact ⟨r, hr, by simp [hra, hrt]⟩
  by_cases hscore : score < 1 ∨ 10 < score
  · have hb : (decide (score < 1) || decide (10 < score)) = true := by
      rcases hscore with h | h <;> simp [h]
    have hpost : postReview s author title_id score text =
        (.badRequest .fieldInvalid, s) := by
      unfold postReview
      rw [hb]
      rfl
    refine ⟨by rw [hpost], by rw [hpost]; rfl, ?_⟩
    intro h1 h10
    exact absurd hscore (by omega)
  · have h1 : ¬ score < 1 := fun hh => hscore (Or.inl hh)
    have h2 : ¬ 10 < score := fun hh => hscore (Or.inr hh)
    have hb : (decide (score < 1) || decide (10 < score)) = false := by
      simp [h1, h2]
    have hpost : postReview s author title_id score text =
        (.badRequest .duplicateReview, s) := by
      unfold postReview
      rw [hb, hany]
      rfl
    exact ⟨by rw [hpost], by rw [hpost]; rfl, fun _ _ => by rw [hpost]⟩

/-- Witness for C1: the invariant on a concrete reachable store, and the
rejection of Alice's second review of title 1. -/
theorem review_uniqueness_witness :
    UniqueReviewPerPair ⟨[userAlice], [titleOne], []⟩ ∧
    (postReview exStore userAlice 1 9 "again").2 = exStore ∧
    (postReview exStore userAlice 1 9 "again").1.status = 400 ∧
    (postReview exStore userAlice 1 9 "again").1 =
      .badRequest .duplicateReview :=
  ⟨review_uniqueness.1 ⟨[userAlice], [titleOne], []⟩
      (Reachable.init [userAlice] [titleOne]),
   (review_uniqueness.2 exStore userAlice 1 9 "again" (by decide)).1,
   (review_uniqueness.2 exStore userAlice 1 9 "again" (by decide)).2.1,
   (review_uniqueness.2 exStore userAlice 1 9 "again" (by decide)).2.2
     (by decide) (by decide)⟩

end Yamdb
